import Mathlib

/- Shallow embedding of the dependency-resolution and local-artifact-cache core of
QuestPackageManager-Rust: src/data/dependency.rs and src/data/file_repository.rs.
Rust HashMaps are modelled as association lists, the filesystem as an explicit
state (files with contents plus the set of existing directories), process::exit
and panic! as error values, and possibly diverging recursion by a fuel
parameter (a result of none means the call did not return within the given
depth). External collaborators (the semver crate, the qpackages remote
resolver, serde_json, std::fs) are modelled at their interface boundary as the
specification describes them. -/

set_option maxHeartbeats 1000000

/-- Association-list lookup with decidable key equality; models HashMap::get. -/
def alookup {α β : Type} [DecidableEq α] : List (α × β) → α → Option β
  | [], _ => none
  | (k, v) :: rest, key => if k = key then some v else alookup rest key

/-- Association-list insert-or-replace; models HashMap::insert. -/
def ainsert {α β : Type} [DecidableEq α] : List (α × β) → α → β → List (α × β)
  | [], key, val => [(key, val)]
  | (k, v) :: rest, key, val =>
    if k = key then (key, val) :: rest else (k, v) :: ainsert rest key val

/-- Model of semver::Version (external crate): major.minor.patch; the
pre-release and build-metadata components are not used by this repository. -/
structure SemVer where
  major : Nat
  minor : Nat
  patch : Nat
deriving DecidableEq

/-- Rendering of a version as the usual dotted string (Version::to_string). -/
def verToString (v : SemVer) : String :=
  toString v.major ++ "." ++ toString v.minor ++ "." ++ toString v.patch

/-- Strict lexicographic order on versions (model of the semver crate order). -/
def SemVer.ltb (a b : SemVer) : Bool :=
  if a.major ≠ b.major then decide (a.major < b.major)
  else if a.minor ≠ b.minor then decide (a.minor < b.minor)
  else decide (a.patch < b.patch)

/-- Model of one comparator of a semver::VersionReq (external crate). -/
inductive Comparator where
  | exactC : SemVer → Comparator
  | gteC : SemVer → Comparator
  | ltC : SemVer → Comparator
  | caretC : SemVer → Comparator
deriving DecidableEq

/-- Satisfaction of one comparator by a version. -/
def Comparator.sat : Comparator → SemVer → Bool
  | .exactC w, v => decide (v = w)
  | .gteC w, v => !(SemVer.ltb v w)
  | .ltC w, v => SemVer.ltb v w
  | .caretC w, v => !(SemVer.ltb v w) && SemVer.ltb v { major := w.major + 1, minor := 0, patch := 0 }

/-- Model of semver::VersionReq: a conjunction of comparators. -/
abbrev VersionReq := List Comparator

/-- VersionReq::matches of the semver crate. -/
def VersionReq.matches (r : VersionReq) (v : SemVer) : Bool := r.all (fun c => c.sat v)

/-- Model of str::to_lowercase (Rust std): ASCII lowercasing, kernel-computable. -/
def toLowercase (s : String) : String :=
  String.mk (s.data.map fun c =>
    if 65 ≤ c.toNat ∧ c.toNat ≤ 90 then Char.ofNat (c.toNat + 32) else c)

/-- AdditionalDependencyData, src/data/dependency.rs lines 20-69: a sparse
overlay of independently optional fields. -/
structure AdditionalDependencyData where
  local_path : Option String := none
  headers_only : Option Bool := none
  static_linking : Option Bool := none
  use_release : Option Bool := none
  so_link : Option String := none
  debug_so_link : Option String := none
  override_so_name : Option String := none
  mod_link : Option String := none
  branch_name : Option String := none
  extra_files : Option (List String) := none
  is_private : Option Bool := none
deriving DecidableEq

/-- Dependency, src/data/dependency.rs lines 11-18. -/
structure Dependency where
  id : String
  version_range : VersionReq
  additional_data : AdditionalDependencyData
deriving DecidableEq

/-- AdditionalDependencyData::merge, src/data/dependency.rs lines 72-102
(self is mutated in place in Rust; the updated value is returned here). -/
def AdditionalDependencyData.merge (self : AdditionalDependencyData)
    (other : AdditionalDependencyData) : AdditionalDependencyData :=
  let s1 :=
    if self.branch_name.isNone then
      match other.branch_name with
      | some other_branch_name => { self with branch_name := some other_branch_name }
      | none => self
    else self
  let s2 :=
    match s1.extra_files, other.extra_files with
    | some extra_files, some other_extra_files =>
      { s1 with extra_files := some (extra_files ++ other_extra_files) }
    | none, some other_extra_files => { s1 with extra_files := some other_extra_files }
    | _, _ => s1
  let s3 :=
    if s2.local_path.isNone then
      match other.local_path with
      | some other_local_path => { s2 with local_path := some other_local_path }
      | none => s2
    else s2
  match s3.is_private, other.is_private with
  | some is_private, some other_is_private =>
    { s3 with is_private := some (is_private || other_is_private) }
  | none, some other_is_private => { s3 with is_private := some other_is_private }
  | _, _ => s3

/-- Modelled from the spec: SharedDependency (src/data/shared_dependency.rs is
not among the given sources) — a Dependency paired with the concrete version it
resolved to; its identity is full structural equality (spec section 3). -/
structure SharedDependency where
  dependency : Dependency
  version : SemVer
deriving DecidableEq

/-- Modelled from the spec: package-level additional data
(src/data/package.rs is not among the given sources); the fields the given
sources and the spec use are static_linking and mod_link (spec section 4.1). -/
structure AdditionalPackageData where
  static_linking : Option Bool := none
  mod_link : Option String := none
deriving DecidableEq

/-- Modelled from the spec: the info block of a package config — id, version
and package-level additional data (spec sections 3 and 6). -/
structure PackageInfo where
  id : String
  version : SemVer
  additional_data : AdditionalPackageData
deriving DecidableEq

/-- Modelled from the spec: PackageConfig — a parsed package-config document
exposing at minimum info.id, info.version and shared_dir (spec section 6). -/
structure PackageConfig where
  info : PackageInfo
  shared_dir : String
deriving DecidableEq

/-- Modelled from the spec: PackageConfig::get_so_name, the package's computed
binary file name (src/data/package.rs is not among the given sources; the spec
leaves the formula unspecified and no claim depends on it). -/
def PackageConfig.get_so_name (config : PackageConfig) : String :=
  "lib" ++ config.info.id ++ ".so"

/-- Modelled from the spec: SharedPackageConfig — the full resolved
configuration of one concrete package version: its own config plus its
restored (already resolved) transitive dependency list (spec section 3;
src/data/shared_package.rs is not among the given sources). -/
structure SharedPackageConfig where
  config : PackageConfig
  restored_dependencies : List SharedDependency
deriving DecidableEq

/-- Modelled from the spec: one entry of the qpackages::get_versions response
(the remote Version Resolver, spec section 6); the source reads v.version from
each entry. -/
structure PackageVersion where
  id : String
  version : SemVer
deriving DecidableEq

/-- Modelled from the spec: the Version Resolver boundary (qpackages.rs is not
among the given sources): get_versions returns the ordered sequence of
available versions of an id, get_shared_package the full config of one
id+version (spec section 6). -/
structure Env where
  get_versions : String → List PackageVersion
  get_shared_package : String → SemVer → SharedPackageConfig

/-- The scan inside Dependency::get_shared_package, src/data/dependency.rs
lines 118-122: walk the resolver's versions in the returned order and take the
first one satisfying the range. -/
def gspLoop (env : Env) (self : Dependency) : List PackageVersion → Option SharedPackageConfig
  | [] => none
  | v :: rest =>
    if self.version_range.matches v.version then
      some (env.get_shared_package self.id v.version)
    else gspLoop env self rest

/-- Dependency::get_shared_package, src/data/dependency.rs lines 116-125. -/
def Dependency.get_shared_package (env : Env) (self : Dependency) : Option SharedPackageConfig :=
  gspLoop env self (env.get_versions self.id)

/-- The accumulator of Dependency::collect:
HashMap of SharedDependency to SharedPackageConfig as an association list. -/
abbrev CollectedMap := List (SharedDependency × SharedPackageConfig)

/-- Model of process::exit reached after a println: the exit status code and
the message printed before exiting. -/
structure ProcExit where
  code : Nat
  msg : String
deriving DecidableEq

/-- The retain call of Dependency::collect, src/data/dependency.rs lines
147-153: drop every restored dependency whose is_private flag is set. -/
def filterRestored (sp : SharedPackageConfig) : SharedPackageConfig :=
  { sp with restored_dependencies := sp.restored_dependencies.filter fun dep =>
      match dep.dependency.additional_data.is_private with
      | some is_private => !is_private
      | none => true }

/-- Construction of the SharedDependency to record, src/data/dependency.rs
lines 156-164: pair the dependency with the resolved version, inheriting
mod_link from the resolved package when absent. -/
def mkToAdd (self : Dependency) (shared_package : SharedPackageConfig) : SharedDependency :=
  let to_add : SharedDependency := { dependency := self, version := shared_package.config.info.version }
  if to_add.dependency.additional_data.mod_link.isNone then
    { to_add with dependency := { to_add.dependency with additional_data :=
        { to_add.dependency.additional_data with
          mod_link := shared_package.config.info.additional_data.mod_link } } }
  else to_add

/-- Modelled from the spec: the body of SharedDependency::collect
(src/data/shared_dependency.rs is not among the given sources) — fold each
entry of the resolved package's privacy-filtered restored_dependencies into
the accumulator through the given recursive call (spec section 4.2 step 7). -/
def collectList (recur : Dependency → CollectedMap → Option (Except ProcExit CollectedMap)) :
    List SharedDependency → CollectedMap → Option (Except ProcExit CollectedMap)
  | [], collected => some (Except.ok collected)
  | d :: rest, collected =>
    match recur d.dependency collected with
    | none => none
    | some (Except.error e) => some (Except.error e)
    | some (Except.ok acc1) => collectList recur rest acc1

/-- Dependency::collect, src/data/dependency.rs lines 127-170. The fuel
parameter makes the recursion total: none means the call did not return within
the given depth (the source has no cycle protection); Except.error models
process::exit(0) after the println reporting the unresolved id. -/
def Dependency.collect : Nat → Env → Dependency → String → CollectedMap → Option (Except ProcExit CollectedMap)
  | 0, _, _, _, _ => none
  | fuel + 1, env, self, this_id, collected =>
    if toLowercase self.id == toLowercase this_id then some (Except.ok collected)
    else
      match Dependency.get_shared_package env self with
      | none => some (Except.error { code := 0, msg := "Could not find config for " ++ self.id })
      | some sp =>
        let shared_package := filterRestored sp
        let to_add := mkToAdd self shared_package
        let collected1 := ainsert collected to_add shared_package
        collectList (fun d acc => Dependency.collect fuel env d this_id acc)
          shared_package.restored_dependencies collected1

/-- Filesystem paths as segment lists; PathBuf::join appends one segment. -/
abbrev FsPath := List String

/-- Rendering of a path for error messages. -/
def pathToString (p : FsPath) : String := String.intercalate "/" p

/-- FileRepository, src/data/file_repository.rs lines 15-18; both nested
HashMaps are modelled as association lists. -/
structure FileRepository where
  artifacts : List (String × List (SemVer × SharedPackageConfig))
deriving DecidableEq

/-- FileRepository::get_artifacts_from_id, src/data/file_repository.rs lines 30-35. -/
def FileRepository.get_artifacts_from_id (self : FileRepository) (id : String) :
    Option (List (SemVer × SharedPackageConfig)) :=
  alookup self.artifacts id

/-- FileRepository::get_artifact, src/data/file_repository.rs lines 37-42. -/
def FileRepository.get_artifact (self : FileRepository) (id : String) (version : SemVer) :
    Option SharedPackageConfig :=
  match alookup self.artifacts id with
  | some artifacts => alookup artifacts version
  | none => none

/-- FileRepository::add_artifact, src/data/file_repository.rs lines 44-60.
The try_insert at lines 50-56 ensures a bucket for the id; the unconditional
self-call at line 58 precedes the insert at line 59, so the insert is only
reached if the recursive call returns. Fuel makes the model total: none means
the call did not return within the given depth. -/
def FileRepository.add_artifact : Nat → FileRepository → SharedPackageConfig → FsPath →
    Option FsPath → Option FileRepository
  | 0, _, _, _, _ => none
  | fuel + 1, self, package, project_folder, binary_path =>
    let self1 : FileRepository :=
      match alookup self.artifacts package.config.info.id with
      | none => { artifacts := ainsert self.artifacts package.config.info.id [] }
      | some _ => self
    match FileRepository.add_artifact fuel self1 package project_folder binary_path with
    | none => none
    | some self2 =>
      let bucket := (alookup self2.artifacts package.config.info.id).getD []
      some { artifacts := ainsert self2.artifacts package.config.info.id
              (ainsert bucket package.config.info.version package) }

/-- File contents in the filesystem model: a parsed package-config document or
an uninterpreted blob. -/
inductive FData where
  | cfgD : PackageConfig → FData
  | blob : String → FData
deriving DecidableEq

/-- Model of the filesystem: files with their contents, plus the set of
existing directories. -/
structure FS where
  files : List (FsPath × FData)
  dirs : List FsPath
deriving DecidableEq

/-- Rust Path::exists — the path is an existing directory or an existing file. -/
def fsExists (fs : FS) (p : FsPath) : Bool :=
  fs.dirs.any (fun d => decide (d = p)) || fs.files.any (fun f => decide (f.1 = p))

/-- First path equals the second or lies beneath it. -/
def underDir : FsPath → FsPath → Bool
  | _, [] => true
  | [], _ :: _ => false
  | a :: arest, b :: brest => decide (b = a) && underDir arest brest

/-- remove_dir_all (external crate): delete the directory and everything under it. -/
def removeDirAll (fs : FS) (p : FsPath) : FS :=
  { files := fs.files.filter fun f => !(underDir f.1 p)
    dirs := fs.dirs.filter fun d => !(underDir d p) }

/-- All the prefixes of a path, the empty path and the path itself included. -/
def ancestorsOf : FsPath → List FsPath
  | [] => [[]]
  | a :: rest => [] :: (ancestorsOf rest).map (fun q => a :: q)

/-- std::fs::create_dir_all: create the directory and all its ancestors. -/
def createDirAll (fs : FS) (p : FsPath) : FS :=
  { fs with dirs := ancestorsOf p ++ fs.dirs }

/-- Model of a Rust panic (panic! or a failed .expect): the message carried. -/
structure Panic where
  msg : String
deriving DecidableEq

/-- std::fs::copy: fails when the source is not an existing file or when the
parent directory of the destination does not exist; on success the destination
gets the source's contents. -/
def fsCopy (fs : FS) (src dst : FsPath) (msg : String) : Except Panic FS :=
  match alookup fs.files src with
  | none => Except.error { msg := msg }
  | some d =>
    if fs.dirs.any (fun q => decide (q = dst.dropLast)) then
      Except.ok { fs with files := ainsert fs.files dst d }
    else Except.error { msg := msg }

/-- Modelled from the spec: PackageConfig::read_path (src/data/package.rs is
not among the given sources) — parse the package-config file at the path;
fatal when the file is missing or does not parse (spec sections 6 and 7). -/
def PackageConfig.read_path (fs : FS) (p : FsPath) : Except Panic PackageConfig :=
  match alookup fs.files p with
  | some (FData.cfgD c) => Except.ok c
  | some (FData.blob _) => Except.error { msg := "Deserializing package failed" }
  | none => Except.error { msg := "Deserializing package failed" }

/-- FileRepository::add_to_cache, src/data/file_repository.rs lines 62-141.
Config::read_combine().cache (config.rs is not among the given sources) is the
global cache directory, passed here as cache_dir; println output is not
modelled; debug_so_path is computed and, as in the source, never used. -/
def FileRepository.add_to_cache (cache_dir : FsPath) (package : SharedPackageConfig)
    (project_folder : FsPath) (binary_path : Option FsPath) (fs : FS) : Except Panic FS :=
  let base_path := cache_dir ++ [package.config.info.id, verToString package.config.info.version]
  let src_path := base_path ++ ["src"]
  let lib_path := base_path ++ ["lib"]
  let tmp_path := base_path ++ ["tmp"]
  let so_path := lib_path ++ [package.config.get_so_name]
  let _debug_so_path := lib_path ++ ["debug_" ++ package.config.get_so_name]
  let fs1 := if fsExists fs tmp_path then removeDirAll fs tmp_path else fs
  let fs2 := if fsExists fs1 src_path then removeDirAll fs1 src_path else fs1
  let fs3 := createDirAll fs2 src_path.dropLast
  let shared_path := project_folder ++ [package.config.shared_dir]
  match fsCopy fs3 shared_path (src_path ++ [package.config.shared_dir])
      ("Unable to copy from " ++ pathToString shared_path ++ " to "
        ++ pathToString (src_path ++ [package.config.shared_dir])) with
  | Except.error e => Except.error e
  | Except.ok fs4 =>
    match fsCopy fs4 (project_folder ++ ["qpm.json"]) (src_path ++ ["qpm.json"])
        ("Unable to copy from " ++ pathToString (project_folder ++ ["qpm.json"]) ++ " to "
          ++ pathToString (src_path ++ ["qpm.json"])) with
    | Except.error e => Except.error e
    | Except.ok fs5 =>
      match (match binary_path with
        | some binary_path_unwrapped =>
          fsCopy fs5 binary_path_unwrapped so_path
            ("Unable to copy from " ++ pathToString binary_path_unwrapped ++ " to "
              ++ pathToString so_path)
        | none => Except.ok fs5) with
      | Except.error e => Except.error e
      | Except.ok fs6 =>
        match PackageConfig.read_path fs6 (src_path ++ ["qpm.json"]) with
        | Except.error e => Except.error e
        | Except.ok downloaded_package =>
          if downloaded_package.info.version ≠ package.config.info.version then
            Except.error { msg := "Downloaded package (" ++ package.config.info.id
              ++ ") version (" ++ verToString downloaded_package.info.version
              ++ ") does not match expected version ("
              ++ verToString package.config.info.version ++ ")!" }
          else Except.ok fs6

/-- FileRepository::global_repository_dir, src/data/file_repository.rs lines
179-181; dirs::config_dir() (external crate) is passed as config_dir. -/
def FileRepository.global_repository_dir (config_dir : FsPath) : FsPath :=
  config_dir ++ ["QPM-Rust"]

/-- FileRepository::global_file_repository_path, src/data/file_repository.rs lines 175-177. -/
def FileRepository.global_file_repository_path (config_dir : FsPath) : FsPath :=
  FileRepository.global_repository_dir config_dir ++ ["qpm.repository.json"]

/-- Filesystem model for the persisted repository document: file contents of
type γ stand for the bytes on disk; serde_json (external crate) is modelled by
the enc and dec parameters of write and read. -/
structure RepoFS (γ : Type) where
  files : List (FsPath × γ)
  dirs : List FsPath
deriving DecidableEq

/-- FileRepository::write, src/data/file_repository.rs lines 164-173: create
the config directory, then overwrite the repository document wholesale with
the serialized repository (serde_json::to_string_pretty modelled by enc). -/
def FileRepository.write {γ : Type} (enc : FileRepository → γ) (config_dir : FsPath)
    (self : FileRepository) (fs : RepoFS γ) : RepoFS γ :=
  let fs1 : RepoFS γ :=
    { fs with dirs := ancestorsOf (FileRepository.global_repository_dir config_dir) ++ fs.dirs }
  { fs1 with files := ainsert fs1.files (FileRepository.global_file_repository_path config_dir) (enc self) }

/-- FileRepository::read, src/data/file_repository.rs lines 144-162: create
the config directory; when the document exists, deserialize it
(serde_json::from_str modelled by dec; failure is fatal), otherwise return the
default empty repository. -/
def FileRepository.read {γ : Type} (dec : γ → Option FileRepository) (config_dir : FsPath)
    (fs : RepoFS γ) : Except Panic (FileRepository × RepoFS γ) :=
  let fs1 : RepoFS γ :=
    { fs with dirs := ancestorsOf (FileRepository.global_repository_dir config_dir) ++ fs.dirs }
  match alookup fs1.files (FileRepository.global_file_repository_path config_dir) with
  | some content =>
    match dec content with
    | some r => Except.ok (r, fs1)
    | none => Except.error { msg := "Deserializing package failed" }
  | none => Except.ok ({ artifacts := [] }, fs1)

/-- An accumulator is privacy-clean when no recorded key is a dependency
marked private and every recorded package's restored dependency list carries
no private entry. -/
def privacyClean (acc : CollectedMap) : Prop :=
  ∀ kv ∈ acc, kv.1.dependency.additional_data.is_private ≠ some true ∧
    ∀ d ∈ kv.2.restored_dependencies, d.dependency.additional_data.is_private ≠ some true

/-- A package config is stored in the repository under exactly this id and
version when some bucket is keyed byte-for-byte by the id and contains the
config keyed by the version. -/
def storedExactly (repo : FileRepository) (id : String) (version : SemVer)
    (p : SharedPackageConfig) : Prop :=
  ∃ bucket, (id, bucket) ∈ repo.artifacts ∧ (version, p) ∈ bucket

/- Concrete fixtures used by the witness theorems below. -/

def v100 : SemVer := { major := 1, minor := 0, patch := 0 }
def v120 : SemVer := { major := 1, minor := 2, patch := 0 }
def v200 : SemVer := { major := 2, minor := 0, patch := 0 }

def depB : Dependency :=
  { id := "b", version_range := [Comparator.caretC v100], additional_data := {} }
def depC : Dependency :=
  { id := "c", version_range := [], additional_data := { is_private := some true } }
def depD : Dependency :=
  { id := "d", version_range := [Comparator.caretC v100], additional_data := {} }

def spB : SharedPackageConfig :=
  { config := { info := { id := "b", version := v120, additional_data := {} }, shared_dir := "shared" }
    restored_dependencies := [ { dependency := depC, version := v200 }
                             , { dependency := depD, version := v100 } ] }
def spD : SharedPackageConfig :=
  { config := { info := { id := "d", version := v100, additional_data := {} }, shared_dir := "shared" }
    restored_dependencies := [] }

def envC2 : Env :=
  { get_versions := fun id =>
      if id = "b" then [ { id := "b", version := v120 } ]
      else if id = "d" then [ { id := "d", version := v100 } ]
      else []
    get_shared_package := fun id v =>
      if id = "b" then spB
      else if id = "d" then spD
      else { config := { info := { id := id, version := v, additional_data := {} }, shared_dir := "shared" }
             restored_dependencies := [] } }

def resC2 : CollectedMap :=
  [ ( { dependency := depB, version := v120 }
    , { config := { info := { id := "b", version := v120, additional_data := {} }, shared_dir := "shared" }
        restored_dependencies := [ { dependency := depD, version := v100 } ] } )
  , ( { dependency := depD, version := v100 }, spD ) ]

def pkgC6 : SharedPackageConfig :=
  { config := { info := { id := "foo", version := v100, additional_data := {} }, shared_dir := "shared" }
    restored_dependencies := [] }

def fsC6 : FS :=
  { files := [ (["proj", "shared"], FData.blob "shared-contents")
             , (["proj", "qpm.json"], FData.cfgD { info := { id := "foo", version := v100, additional_data := {} }, shared_dir := "shared" }) ]
    dirs := ancestorsOf ["cache", "foo", "1.0.0", "tmp"] ++ [["proj"]] }

def pkgC5 : SharedPackageConfig :=
  { config := { info := { id := "foo", version := v200, additional_data := {} }, shared_dir := "shared" }
    restored_dependencies := [] }

def fsC5 : FS :=
  { files := [ (["proj", "shared"], FData.blob "shared-contents")
             , (["proj", "qpm.json"], FData.cfgD { info := { id := "foo", version := v100, additional_data := {} }, shared_dir := "shared" }) ]
    dirs := [["proj"]] }

/-- Helper: a successful association-list lookup pinpoints a stored pair whose
key equals the queried key byte-for-byte. -/
theorem alookup_mem {α β : Type} [DecidableEq α] {m : List (α × β)} {k : α} {v : β}
    (h : alookup m k = some v) : (k, v) ∈ m := by
  induction m with
  | nil => simp [alookup] at h
  | cons kv rest ih =>
    obtain ⟨k1, v1⟩ := kv
    by_cases hk : k1 = k
    · subst hk
      simp [alookup] at h
      simp [h]
    · simp [alookup, hk] at h
      exact List.mem_cons_of_mem _ (ih h)

/-- Helper: looking up a key absent from the list yields none. -/
theorem alookup_none {α β : Type} [DecidableEq α] {m : List (α × β)} {k : α}
    (h : ∀ kv ∈ m, kv.1 ≠ k) : alookup m k = none := by
  induction m with
  | nil => rfl
  | cons kv rest ih =>
    obtain ⟨k1, v1⟩ := kv
    have hne : k1 ≠ k := h (k1, v1) (List.mem_cons_self _ _)
    simp [alookup, hne]
    exact ih fun kv hkv => h kv (List.mem_cons_of_mem _ hkv)

/-- Helper: lookup after insert-or-replace at the same key returns the new value. -/
theorem alookup_ainsert_self {α β : Type} [DecidableEq α] (m : List (α × β)) (k : α) (v : β) :
    alookup (ainsert m k v) k = some v := by
  induction m with
  | nil => simp [ainsert, alookup]
  | cons kv rest ih =>
    obtain ⟨k1, v1⟩ := kv
    by_cases hk : k1 = k
    · simp [ainsert, hk, alookup]
    · simp [ainsert, hk, alookup, ih]

/-- Helper: every member of the list after an insert-or-replace is either the
inserted pair or a member of the original list. -/
theorem mem_ainsert {α β : Type} [DecidableEq α] {m : List (α × β)} {k : α} {v : β}
    {kv : α × β} (h : kv ∈ ainsert m k v) : kv = (k, v) ∨ kv ∈ m := by
  induction m with
  | nil => simp [ainsert] at h; simp [h]
  | cons kv1 rest ih =>
    obtain ⟨k1, v1⟩ := kv1
    by_cases hk : k1 = k
    · simp [ainsert, hk] at h
      rcases h with h | h
      · left; simp [h]
      · right; exact List.mem_cons_of_mem _ h
    · simp [ainsert, hk] at h
      rcases h with h | h
      · right; simp [h]
      · rcases ih h with h1 | h1
        · left; exact h1
        · right; exact List.mem_cons_of_mem _ h1

/-- Helper: membership in the privacy-filtered restored dependency list. -/
theorem filterRestored_mem (sp : SharedPackageConfig) (d : SharedDependency) :
    d ∈ (filterRestored sp).restored_dependencies ↔
      d ∈ sp.restored_dependencies ∧ d.dependency.additional_data.is_private ≠ some true := by
  simp only [filterRestored, List.mem_filter]
  constructor
  · rintro ⟨hmem, hkeep⟩
    refine ⟨hmem, ?_⟩
    intro hpriv
    rw [hpriv] at hkeep
    simp at hkeep
  · rintro ⟨hmem, hne⟩
    refine ⟨hmem, ?_⟩
    cases hip : d.dependency.additional_data.is_private with
    | none => simp
    | some b =>
      cases b with
      | false => simp
      | true => exact absurd hip hne

/-- Helper: mkToAdd never touches the privacy flag of the dependency. -/
theorem mkToAdd_is_private (self : Dependency) (sp : SharedPackageConfig) :
    (mkToAdd self sp).dependency.additional_data.is_private = self.additional_data.is_private := by
  unfold mkToAdd
  by_cases h : self.additional_data.mod_link.isNone <;> simp [h]

/-- Helper: when no offered version satisfies the range, the scan returns none. -/
theorem gspLoop_none (env : Env) (self : Dependency) (l : List PackageVersion)
    (h : ∀ v ∈ l, self.version_range.matches v.version = false) :
    gspLoop env self l = none := by
  induction l with
  | nil => rfl
  | cons v rest ih =>
    have hv := h v (List.mem_cons_self _ _)
    simp only [gspLoop, hv, Bool.false_eq_true, if_false]
    exact ih fun w hw => h w (List.mem_cons_of_mem _ hw)

/-- Helper: inserting a privacy-clean pair keeps the accumulator privacy-clean. -/
theorem privacyClean_ainsert {acc : CollectedMap} {k : SharedDependency}
    {v : SharedPackageConfig} (hacc : privacyClean acc)
    (hk : k.dependency.additional_data.is_private ≠ some true)
    (hv : ∀ d ∈ v.restored_dependencies, d.dependency.additional_data.is_private ≠ some true) :
    privacyClean (ainsert acc k v) := by
  intro kv hkv
  rcases mem_ainsert hkv with h | h
  · rw [h]; exact ⟨hk, hv⟩
  · exact hacc kv h

/-- Helper: the privacy invariant is preserved by the recursion step over a
list of already-filtered restored dependencies. -/
theorem collectList_privacy
    (recur : Dependency → CollectedMap → Option (Except ProcExit CollectedMap))
    (Hrec : ∀ (d : Dependency) (collected result : CollectedMap), privacyClean collected →
      d.additional_data.is_private ≠ some true →
      recur d collected = some (Except.ok result) → privacyClean result) :
    ∀ (l : List SharedDependency) (collected result : CollectedMap),
      privacyClean collected →
      (∀ d ∈ l, d.dependency.additional_data.is_private ≠ some true) →
      collectList recur l collected = some (Except.ok result) →
      privacyClean result := by
  intro l
  induction l with
  | nil =>
    intro collected result hacc _ h
    simp only [collectList] at h
    injection h with h1
    injection h1 with h2
    rw [← h2]
    exact hacc
  | cons d rest ih =>
    intro collected result hacc hl h
    simp only [collectList] at h
    cases hr : recur d.dependency collected with
    | none => rw [hr] at h; cases h
    | some r =>
      cases r with
      | error e => rw [hr] at h; injection h with h1; cases h1
      | ok acc1 =>
        rw [hr] at h
        have hd := hl d (List.mem_cons_self _ _)
        exact ih acc1 result (Hrec d.dependency collected acc1 hacc hd hr)
          (fun w hw => hl w (List.mem_cons_of_mem _ hw)) h

/-- Helper: Dependency::collect preserves privacy-cleanliness of the
accumulator when the collected dependency is itself not private. -/
theorem collect_privacy :
    ∀ (fuel : Nat) (env : Env) (self : Dependency) (this_id : String)
      (collected result : CollectedMap),
      privacyClean collected →
      self.additional_data.is_private ≠ some true →
      Dependency.collect fuel env self this_id collected = some (Except.ok result) →
      privacyClean result := by
  intro fuel
  induction fuel with
  | zero => intro env self this_id collected result _ _ h; cases h
  | succ n ih =>
    intro env self this_id collected result hacc hself h
    simp only [Dependency.collect] at h
    by_cases hguard : (toLowercase self.id == toLowercase this_id) = true
    · simp only [hguard, if_true] at h
      injection h with h1
      injection h1 with h2
      rw [← h2]
      exact hacc
    · simp only [Bool.not_eq_true] at hguard
      simp only [hguard, Bool.false_eq_true, if_false] at h
      cases hgsp : Dependency.get_shared_package env self with
      | none => rw [hgsp] at h; injection h with h1; cases h1
      | some sp =>
        rw [hgsp] at h
        have hvals : ∀ d ∈ (filterRestored sp).restored_dependencies,
            d.dependency.additional_data.is_private ≠ some true := by
          intro d hd
          exact ((filterRestored_mem sp d).mp hd).2
        have hkey : (mkToAdd self (filterRestored sp)).dependency.additional_data.is_private ≠ some true := by
          rw [mkToAdd_is_private]
          exact hself
        exact collectList_privacy _ (fun d c r hc hd hr => ih env d this_id c r hc hd hr)
          (filterRestored sp).restored_dependencies _ result
          (privacyClean_ainsert hacc hkey hvals) hvals h

/-- Helper: a path lies beneath itself. -/
theorem underDir_refl (p : FsPath) : underDir p p = true := by
  induction p with
  | nil => rfl
  | cons a rest ih => simp [underDir, ih]

/-- Helper: every ancestor of a path is at most as long as the path. -/
theorem mem_ancestorsOf_length {q r : FsPath} (h : q ∈ ancestorsOf r) : q.length ≤ r.length := by
  induction r generalizing q with
  | nil => simp [ancestorsOf] at h; simp [h]
  | cons a rest ih =>
    simp only [ancestorsOf, List.mem_cons, List.mem_map] at h
    rcases h with h | ⟨q1, hq1, hq⟩
    · simp [h]
    · rw [← hq]
      simpa using ih hq1

/-- Helper: std::fs::copy fails when the destination's parent directory does
not exist, regardless of the source. -/
theorem fsCopy_no_parent {fs : FS} {src dst : FsPath} {msg : String}
    (h : dst.dropLast ∉ fs.dirs) : fsCopy fs src dst msg = Except.error { msg := msg } := by
  unfold fsCopy
  cases hl : alookup fs.files src with
  | none => rfl
  | some d =>
    have hany : (fs.dirs.any fun q => decide (q = dst.dropLast)) = false := by
      by_contra hc
      rw [Bool.not_eq_false, List.any_eq_true] at hc
      obtain ⟨q, hq, hdec⟩ := hc
      rw [decide_eq_true_eq] at hdec
      exact h (hdec ▸ hq)
    simp [hany]

/-- Helper: after the tmp/src cleanup and the create_dir_all applied to the
parent of the src path (line 97 of file_repository.rs), the src directory
itself does not exist. -/
theorem src_dir_not_created (fs : FS) (p : FsPath) (hp : p ≠ []) :
    p ∉ (createDirAll (if fsExists fs p then removeDirAll fs p else fs) p.dropLast).dirs := by
  intro hmem
  simp only [createDirAll, List.mem_append] at hmem
  rcases hmem with hanc | hdirs
  · have hlen := mem_ancestorsOf_length hanc
    have hlt : p.dropLast.length < p.length := by
      cases p with
      | nil => exact absurd rfl hp
      | cons a r => simp [List.length_dropLast]
    omega
  · by_cases hex : fsExists fs p = true
    · simp only [hex, if_true] at hdirs
      simp only [removeDirAll, List.mem_filter] at hdirs
      have hkeep := hdirs.2
      rw [underDir_refl] at hkeep
      simp at hkeep
    · simp only [hex, if_false] at hdirs
      apply hex
      unfold fsExists
      rw [Bool.or_eq_true]
      left
      rw [List.any_eq_true]
      exact ⟨p, hdirs, by simp⟩

/-- Helper: std::fs::copy to a destination directly inside a missing
directory fails. -/
theorem fsCopy_concat_no_parent {fs : FS} {src d : FsPath} {leaf : String} {msg : String}
    (h : d ∉ fs.dirs) : fsCopy fs src (d ++ [leaf]) msg = Except.error { msg := msg } := by
  apply fsCopy_no_parent
  rw [List.dropLast_concat]
  exact h

/-- C1: FileRepository::add_artifact re-invokes itself unconditionally before
performing the insert at line 59, so for every fuel bound, every repository
state, every package, every project folder and every optional binary path the
call fails to return, and in particular no artifact is ever inserted: the
model returns none at every depth. -/
theorem add_artifact_never_returns :
    ∀ (fuel : Nat) (self : FileRepository) (package : SharedPackageConfig)
      (project_folder : FsPath) (binary_path : Option FsPath),
      FileRepository.add_artifact fuel self package project_folder binary_path = none := by
  intro fuel
  induction fuel with
  | zero => intro self package pf bp; rfl
  | succ n ih =>
    intro self package pf bp
    simp only [FileRepository.add_artifact]
    rw [ih]

/-- C2: the retain call of Dependency::collect keeps exactly the restored
dependencies whose is_private flag is absent or false (every Some(true) entry
is removed before the package is recorded and before recursion), and
consequently, starting from a privacy-clean accumulator and a non-private
root dependency, every accumulator entry produced by collect is privacy-clean:
no recorded key is a private dependency and no recorded package retains a
private restored dependency. -/
theorem collect_excludes_private :
    (∀ (sp : SharedPackageConfig) (d : SharedDependency),
        d ∈ (filterRestored sp).restored_dependencies ↔
          d ∈ sp.restored_dependencies ∧ d.dependency.additional_data.is_private ≠ some true)
    ∧ (∀ (fuel : Nat) (env : Env) (self : Dependency) (this_id : String)
        (collected result : CollectedMap),
        privacyClean collected →
        self.additional_data.is_private ≠ some true →
        Dependency.collect fuel env self this_id collected = some (Except.ok result) →
        privacyClean result) :=
  ⟨filterRestored_mem, collect_privacy⟩

/-- C2 witness: a concrete two-level resolution (root a, dependency b at
1.2.0 whose restored dependencies are a private c and a public d) yields an
accumulator that records b and d and is privacy-clean; c never enters. -/
theorem collect_excludes_private_witness : privacyClean resC2 :=
  collect_excludes_private.2 3 envC2 depB "a" [] resC2
    (fun kv hkv => absurd hkv (List.not_mem_nil kv))
    (by decide) rfl

/-- C3 counterexample: at a concrete unresolvable input the claim's
non-zero-outcome part is false — the process exit that collect performs
carries status code 0, so no exit with a non-zero code exists. -/
theorem collect_unresolvable_nonzero_cex :
    ¬ ∃ e : ProcExit,
      Dependency.collect 1
        { get_versions := fun _ => []
          get_shared_package := fun id v =>
            { config := { info := { id := id, version := v, additional_data := {} }, shared_dir := "shared" }
              restored_dependencies := [] } }
        { id := "foo", version_range := [], additional_data := {} } "root" [] =
        some (Except.error e) ∧ e.code ≠ 0 := by
  rintro ⟨e, heq, hcode⟩
  have hval : Dependency.collect 1
      { get_versions := fun _ => []
        get_shared_package := fun id v =>
          { config := { info := { id := id, version := v, additional_data := {} }, shared_dir := "shared" }
            restored_dependencies := [] } }
      { id := "foo", version_range := [], additional_data := {} } "root" [] =
      some (Except.error { code := 0, msg := "Could not find config for foo" }) := rfl
  rw [hval] at heq
  have : e = { code := 0, msg := "Could not find config for foo" } := by
    injection heq with h1
    injection h1 with h2
    exact h2.symm
  rw [this] at hcode
  exact hcode rfl

/-- C3 (amended): when the self-reference guard does not fire and no version
returned by the resolver satisfies the range, Dependency::collect aborts the
whole pass at once — the accumulator is discarded, the message printed names
the unresolved id — but the process exit called at line 143 carries status
code 0, a success status, not a non-zero-equivalent outcome. -/
theorem collect_unresolvable_exits_zero :
    ∀ (fuel : Nat) (env : Env) (self : Dependency) (this_id : String) (collected : CollectedMap),
      (toLowercase self.id == toLowercase this_id) = false →
      (∀ v ∈ env.get_versions self.id, self.version_range.matches v.version = false) →
      Dependency.collect (fuel + 1) env self this_id collected =
        some (Except.error { code := 0, msg := "Could not find config for " ++ self.id }) := by
  intro fuel env self this_id collected hguard hnomatch
  have hgsp : Dependency.get_shared_package env self = none := by
    unfold Dependency.get_shared_package
    exact gspLoop_none env self _ hnomatch
  simp only [Dependency.collect, hguard, Bool.false_eq_true, if_false, hgsp]

/-- C3 witness: a concrete resolver offering no versions for the id makes
collect exit at once with status 0 and a message naming the id. -/
theorem collect_unresolvable_exits_zero_witness :
    Dependency.collect 1
      { get_versions := fun _ => []
        get_shared_package := fun id v =>
          { config := { info := { id := id, version := v, additional_data := {} }, shared_dir := "shared" }
            restored_dependencies := [] } }
      { id := "foo", version_range := [], additional_data := {} } "root" [] =
      some (Except.error { code := 0, msg := "Could not find config for foo" }) := by
  exact collect_unresolvable_exits_zero 0
    { get_versions := fun _ => []
      get_shared_package := fun id v =>
        { config := { info := { id := id, version := v, additional_data := {} }, shared_dir := "shared" }
          restored_dependencies := [] } }
    { id := "foo", version_range := [], additional_data := {} } "root" []
    (by decide) (by intro v hv; simp at hv)

/-- C4: Dependency::get_shared_package scans the resolver's versions in
exactly the returned order: when the returned sequence splits as l1 ++ v :: l2
with every entry of l1 failing the range and v satisfying it, the result is
the full SharedPackageConfig fetched for v. -/
theorem get_shared_package_first_match :
    ∀ (env : Env) (self : Dependency) (l1 : List PackageVersion) (v : PackageVersion)
      (l2 : List PackageVersion),
      env.get_versions self.id = l1 ++ v :: l2 →
      (∀ u ∈ l1, self.version_range.matches u.version = false) →
      self.version_range.matches v.version = true →
      Dependency.get_shared_package env self = some (env.get_shared_package self.id v.version) := by
  intro env self l1 v l2 hsplit hfail hmatch
  unfold Dependency.get_shared_package
  rw [hsplit]
  clear hsplit
  induction l1 with
  | nil => simp [gspLoop, hmatch]
  | cons u rest ih =>
    have hu : self.version_range.matches u.version = false := hfail u (List.mem_cons_self _ _)
    simp only [List.cons_append, gspLoop, hu]
    simp only [Bool.false_eq_true, if_false]
    exact ih fun w hw => hfail w (List.mem_cons_of_mem _ hw)

/-- C4 witness: with versions 3.0.0, 1.5.0, 1.0.0 offered in that order and
range caret 1.2.0, the scan skips 3.0.0 and selects 1.5.0, the first
satisfying entry in resolver order. -/
theorem get_shared_package_first_match_witness :
    Dependency.get_shared_package
      { get_versions := fun _ =>
          [ { id := "b", version := { major := 3, minor := 0, patch := 0 } }
          , { id := "b", version := { major := 1, minor := 5, patch := 0 } }
          , { id := "b", version := { major := 1, minor := 0, patch := 0 } } ]
        get_shared_package := fun id v =>
          { config := { info := { id := id, version := v, additional_data := {} }, shared_dir := "shared" }
            restored_dependencies := [] } }
      { id := "b", version_range := [Comparator.caretC { major := 1, minor := 2, patch := 0 }]
        additional_data := {} } =
      some { config := { info := { id := "b", version := { major := 1, minor := 5, patch := 0 }
                                   , additional_data := {} }, shared_dir := "shared" }
             restored_dependencies := [] } := by
  have h := get_shared_package_first_match
    { get_versions := fun _ =>
        [ { id := "b", version := { major := 3, minor := 0, patch := 0 } }
        , { id := "b", version := { major := 1, minor := 5, patch := 0 } }
        , { id := "b", version := { major := 1, minor := 0, patch := 0 } } ]
      get_shared_package := fun id v =>
        { config := { info := { id := id, version := v, additional_data := {} }, shared_dir := "shared" }
          restored_dependencies := [] } }
    { id := "b", version_range := [Comparator.caretC { major := 1, minor := 2, patch := 0 }]
      additional_data := {} }
    [ { id := "b", version := { major := 3, minor := 0, patch := 0 } } ]
    { id := "b", version := { major := 1, minor := 5, patch := 0 } }
    [ { id := "b", version := { major := 1, minor := 0, patch := 0 } } ]
    rfl (by decide) (by decide)
  exact h

/-- C5 failing input: the staged source declares version 1.0.0 while the
package being cached expects 2.0.0. The operation does fail fatally, but with
the staging-copy panic — naming paths, not the two versions — because the src
directory is never created and so the integrity check at lines 129-141, the
one that names both versions, is never reached. -/
theorem add_to_cache_mismatch_check_unreached :
    FileRepository.add_to_cache ["cache"] pkgC5 ["proj"] none fsC5 =
      Except.error { msg := "Unable to copy from proj/shared to cache/foo/2.0.0/src/shared" } := rfl
/-- C6 failing input: package foo 1.0.0, a valid project folder holding the
shared-directory file and a matching qpm.json, a pre-existing tmp directory
for this id/version and no src directory. The writer deletes tmp and then
fails fatally at the first staging copy — line 97 created only the base
directory, never src — instead of succeeding with src populated. -/
theorem add_to_cache_recovery_fails :
    FileRepository.add_to_cache ["cache"] pkgC6 ["proj"] none fsC6 =
      Except.error { msg := "Unable to copy from proj/shared to cache/foo/1.0.0/src/shared" } := rfl

/-- C7: field-by-field contract of AdditionalDependencyData::merge —
branch_name and local_path prefer self and fall back to other; extra_files
concatenates self's entries first without deduplication when both are present
and otherwise takes the sole present list; is_private is the logical OR when
both are present and otherwise the sole present flag; every other field of
self is untouched. -/
theorem merge_field_spec :
    ∀ (self other : AdditionalDependencyData),
      (self.merge other).branch_name =
        (match self.branch_name with | some b => some b | none => other.branch_name)
      ∧ (self.merge other).local_path =
        (match self.local_path with | some l => some l | none => other.local_path)
      ∧ (self.merge other).extra_files =
        (match self.extra_files, other.extra_files with
          | some e, some o => some (e ++ o)
          | some e, none => some e
          | none, some o => some o
          | none, none => none)
      ∧ (self.merge other).is_private =
        (match self.is_private, other.is_private with
          | some p, some q => some (p || q)
          | some p, none => some p
          | none, some q => some q
          | none, none => none)
      ∧ (self.merge other).headers_only = self.headers_only
      ∧ (self.merge other).static_linking = self.static_linking
      ∧ (self.merge other).use_release = self.use_release
      ∧ (self.merge other).so_link = self.so_link
      ∧ (self.merge other).debug_so_link = self.debug_so_link
      ∧ (self.merge other).override_so_name = self.override_so_name
      ∧ (self.merge other).mod_link = self.mod_link := by
  intro self other
  obtain ⟨lp, ho, sl, ur, so, dso, osn, ml, bn, ef, ip⟩ := self
  obtain ⟨olp, oho, osl, our, oso, odso, oosn, oml, obn, oef, oip⟩ := other
  cases bn <;> cases obn <;> cases ef <;> cases oef <;> cases lp <;> cases olp <;>
    cases ip <;> cases oip <;>
    simp [AdditionalDependencyData.merge]

/-- C8: because line 97 of file_repository.rs creates only the parent of the
src directory and never src itself (nor lib), every invocation of
FileRepository::add_to_cache — for every cache directory, package, project
folder, optional binary path and starting filesystem — fails fatally already
at the first staging copy, with the copy panic message; in particular the
result does not depend on the binary path and no binary (nor debug binary) is
ever copied into lib. -/
theorem add_to_cache_always_fails_at_staging :
    ∀ (cache_dir : FsPath) (package : SharedPackageConfig) (project_folder : FsPath)
      (binary_path : Option FsPath) (fs : FS),
      FileRepository.add_to_cache cache_dir package project_folder binary_path fs =
        Except.error { msg := "Unable to copy from "
          ++ pathToString (project_folder ++ [package.config.shared_dir]) ++ " to "
          ++ pathToString (cache_dir ++ [package.config.info.id,
              verToString package.config.info.version] ++ ["src"] ++ [package.config.shared_dir]) } := by
  intro cache_dir package project_folder binary_path fs
  unfold FileRepository.add_to_cache
  dsimp only
  have hne : cache_dir ++ [package.config.info.id, verToString package.config.info.version]
      ++ ["src"] ≠ ([] : FsPath) := by
    intro hcontra
    have := congrArg List.length hcontra
    simp at this
  have hsrc := src_dir_not_created
    (if fsExists fs (cache_dir ++ [package.config.info.id, verToString package.config.info.version] ++ ["tmp"])
      then removeDirAll fs (cache_dir ++ [package.config.info.id, verToString package.config.info.version] ++ ["tmp"])
      else fs)
    (cache_dir ++ [package.config.info.id, verToString package.config.info.version] ++ ["src"])
    hne
  rw [fsCopy_concat_no_parent hsrc]

/-- C9: for every faithful serializer/deserializer pair (the contract of the
external serde_json codec: decoding an encoded repository returns it), every
config directory, every repository value and every starting filesystem,
FileRepository::write followed by FileRepository::read yields the same
in-memory repository: read finds the exact document write stored at the
global repository path and decodes it back to the written value. -/
theorem write_read_roundtrip :
    ∀ (γ : Type) (enc : FileRepository → γ) (dec : γ → Option FileRepository)
      (config_dir : FsPath) (self : FileRepository) (fs : RepoFS γ),
      (∀ r, dec (enc r) = some r) →
      FileRepository.read dec config_dir (FileRepository.write enc config_dir self fs) =
        Except.ok (self,
          { files := ainsert fs.files (FileRepository.global_file_repository_path config_dir) (enc self)
            dirs := ancestorsOf (FileRepository.global_repository_dir config_dir)
              ++ (ancestorsOf (FileRepository.global_repository_dir config_dir) ++ fs.dirs) }) := by
  intro γ enc dec config_dir self fs hcodec
  unfold FileRepository.read FileRepository.write
  simp only [alookup_ainsert_self, hcodec]

/-- C9 witness: with the identity codec on the structured document type, a
concrete repository written over an empty filesystem reads back equal. -/
theorem write_read_roundtrip_witness :
    FileRepository.read some ["cfg"]
      (FileRepository.write id ["cfg"] { artifacts := [("Foo", [(v100, spD)])] }
        { files := [], dirs := [] }) =
      Except.ok ({ artifacts := [("Foo", [(v100, spD)])] },
        { files := [(FileRepository.global_file_repository_path ["cfg"],
            { artifacts := [("Foo", [(v100, spD)])] })]
          dirs := ancestorsOf (FileRepository.global_repository_dir ["cfg"])
            ++ (ancestorsOf (FileRepository.global_repository_dir ["cfg"]) ++ []) }) := by
  exact write_read_roundtrip FileRepository id some ["cfg"]
    { artifacts := [("Foo", [(v100, spD)])] } { files := [], dirs := [] }
    (fun r => rfl)

/-- C10: repository lookups are byte-for-byte on the package id — a
successful get_artifact pinpoints a stored bucket keyed exactly by the queried
id, and when no stored key equals the id byte-for-byte both lookups return
none (even an id differing only in letter case) — while the dependency
identity guard in Dependency::collect compares the lowercased forms, returning
the accumulator unchanged whenever the lowercased ids coincide. -/
theorem artifact_lookup_case_sensitive :
    (∀ (repo : FileRepository) (id : String) (version : SemVer) (p : SharedPackageConfig),
        repo.get_artifact id version = some p → storedExactly repo id version p)
    ∧ (∀ (repo : FileRepository) (id : String) (version : SemVer),
        (∀ kb ∈ repo.artifacts, kb.1 ≠ id) →
        repo.get_artifact id version = none ∧ repo.get_artifacts_from_id id = none)
    ∧ (∀ (fuel : Nat) (env : Env) (self : Dependency) (this_id : String)
        (collected : CollectedMap),
        (toLowercase self.id == toLowercase this_id) = true →
        Dependency.collect (fuel + 1) env self this_id collected = some (Except.ok collected)) := by
  refine ⟨?_, ?_, ?_⟩
  · intro repo id version p h
    unfold FileRepository.get_artifact at h
    cases hb : alookup repo.artifacts id with
    | none => rw [hb] at h; cases h
    | some bucket =>
      rw [hb] at h
      exact ⟨bucket, alookup_mem hb, alookup_mem h⟩
  · intro repo id version h
    have hb : alookup repo.artifacts id = none := alookup_none h
    constructor
    · unfold FileRepository.get_artifact
      rw [hb]
    · unfold FileRepository.get_artifacts_from_id
      exact hb
  · intro fuel env self this_id collected h
    simp only [Dependency.collect, h, if_true]

/-- C10 witness: with only the key Foo stored, looking up foo — equal to Foo
after lowercasing but different byte-for-byte — yields none from both
get_artifact and get_artifacts_from_id, the exact key Foo is still found and
pinpointed, and collect's guard, by contrast, treats FOO and foo as the same
identity, returning the accumulator unchanged. -/
theorem artifact_lookup_case_sensitive_witness :
    (FileRepository.get_artifact { artifacts := [("Foo", [(v100, spD)])] } "foo" v100 = none
      ∧ FileRepository.get_artifacts_from_id { artifacts := [("Foo", [(v100, spD)])] } "foo" = none)
    ∧ storedExactly { artifacts := [("Foo", [(v100, spD)])] } "Foo" v100 spD
    ∧ toLowercase "foo" = toLowercase "Foo"
    ∧ Dependency.collect 1 envC2
        { id := "FOO", version_range := [], additional_data := {} } "foo" [] =
        some (Except.ok []) := by
  refine ⟨?_, ?_, by decide, ?_⟩
  · exact artifact_lookup_case_sensitive.2.1 { artifacts := [("Foo", [(v100, spD)])] } "foo" v100
      (by decide)
  · exact artifact_lookup_case_sensitive.1 { artifacts := [("Foo", [(v100, spD)])] } "Foo" v100 spD rfl
  · exact artifact_lookup_case_sensitive.2.2 0 envC2
      { id := "FOO", version_range := [], additional_data := {} } "foo" [] (by decide)

